import Mathlib

/-!
Shallow embedding of the TCP relay server of shadowsocks-rust
(src/relay/tcprelay/server.rs), together with models of the collaborator
modules it uses (crypto cipher, SOCKS5 request-header parser, cached DNS)
that are described by the design document but whose sources are not part
of this tree.

Conventions: bytes are `Nat` (values taken modulo 256 where it matters for
xor), socket read results are `Except IoErrorKind (List Nat)` mirroring the
old Rust `IoResult<uint>` reads (EOF is the `EndOfFile` error kind, not a
zero-length `Ok`), and the effect of a pump loop on its two sockets is
recorded as a trace of `PumpEvent`s.
-/

namespace SS

/-- The `std::io` error kinds the relay inspects (`EndOfFile`, `TimedOut`,
`BrokenPipe`) plus a catch-all for every other kind. -/
inductive IoErrorKind where
  | endOfFile
  | timedOut
  | brokenPipe
  | otherError
  deriving DecidableEq, Repr

/-- Result of one socket read: a chunk of bytes on success, or an I/O error
kind.  In the old Rust API a clean EOF is `Err(EndOfFile)`. -/
abbrev ReadEvent := Except IoErrorKind (List Nat)

/-- Result of one socket write: `none` means the write succeeded, `some k`
means it failed with error kind `k`. -/
abbrev WriteResult := Option IoErrorKind

/-- Modelled from the spec: `crypto::cipher::CipherVariant` (the crypto
module is not in this tree).  A stream cipher holds a keystream derived
from `(method, password)` and two independently advancing positions, one
for the encrypt stream and one for the decrypt stream; `clone` copies
both positions, matching the split-handles contract of the design. -/
structure CipherVariant where
  ks : Nat → Nat
  encPos : Nat
  decPos : Nat

/-- Xor a byte list against the keystream starting at position `pos`. -/
def xorStream (ks : Nat → Nat) (pos : Nat) : List Nat → List Nat
  | [] => []
  | b :: bs => (b ^^^ ks pos) :: xorStream ks (pos + 1) bs

/-- Modelled from the spec: `CipherVariant::encrypt` — transform the chunk
with the encrypt stream and advance only the encrypt position. -/
def CipherVariant.encrypt (c : CipherVariant) (m : List Nat) :
    List Nat × CipherVariant :=
  (xorStream c.ks c.encPos m, { c with encPos := c.encPos + m.length })

/-- Modelled from the spec: `CipherVariant::decrypt` — transform the chunk
with the decrypt stream and advance only the decrypt position. -/
def CipherVariant.decrypt (c : CipherVariant) (m : List Nat) :
    List Nat × CipherVariant :=
  (xorStream c.ks c.decPos m, { c with decPos := c.decPos + m.length })

/-- Modelled from the spec: the registry of recognized cipher method names
consulted by `crypto::cipher::with_name`. -/
def supportedMethods : List String :=
  ["table", "rc4", "aes-128-cfb", "aes-192-cfb", "aes-256-cfb"]

/-- Modelled from the spec: keystream derivation from `(method, password)`.
The design fixes only that the state is derived from the pair and that
the transform is a stream cipher; any concrete derivation satisfies it. -/
def deriveKeystream (method : String) (password : List Nat) (i : Nat) : Nat :=
  (method.length + password.sum + i) % 256

/-- Modelled from the spec: `crypto::cipher::with_name` — `none` for an
unrecognized method name, otherwise a freshly keyed cipher with both
stream positions at zero. -/
def withName (method : String) (password : List Nat) : Option CipherVariant :=
  if method ∈ supportedMethods then
    some { ks := deriveKeystream method password, encPos := 0, decPos := 0 }
  else
    none

/-- Observable actions of one pump loop on its pair of sockets. -/
inductive PumpEvent where
  | wroteLocal (data : List Nat)
  | wroteRemote (data : List Nat)
  | closedLocalWrite
  | closedLocalRead
  | closedRemoteWrite
  | closedRemoteRead
  | taskPanic
  | loopBreak
  deriving DecidableEq, Repr

/-- The fixed read buffer `[0u8, .. 0xffff]` of
`TcpRelayServer::handle_connect_remote` (server.rs line 66). -/
def remotePumpBuf : List Nat := List.replicate 0xffff 0

/-- The fixed read buffer `[0u8, .. 0xffff]` of
`TcpRelayServer::handle_connect_local` (server.rs line 105). -/
def localPumpBuf : List Nat := List.replicate 0xffff 0

/-- Size of the remote-to-client pump's read buffer. -/
def remotePumpBufSize : Nat := remotePumpBuf.length

/-- Size of the client-to-remote pump's read buffer. -/
def localPumpBufSize : Nat := localPumpBuf.length

/-- `TcpRelayServer::handle_connect_remote` (server.rs lines 64-101): loop
reading from the remote socket, encrypting, and writing to the local
(client) socket.  On a read error (EOF included) it half-closes the local
socket's write side and breaks; on a write error it half-closes the remote
socket's read side and breaks.  The environment is given as the sequence of
read results and the sequence of write outcomes; an exhausted environment
ends the trace (the loop would block). -/
def handle_connect_remote (cipher : CipherVariant) :
    List ReadEvent → List WriteResult → List PumpEvent
  | [], _ => []
  | Except.error _ :: _, _ =>
      [PumpEvent.closedLocalWrite, PumpEvent.loopBreak]
  | Except.ok _ :: _, [] => []
  | Except.ok chunk :: rs, w :: ws =>
      let enc := cipher.encrypt chunk
      match w with
      | none => PumpEvent.wroteLocal enc.fst :: handle_connect_remote enc.snd rs ws
      | some _ => [PumpEvent.closedRemoteRead, PumpEvent.loopBreak]

/-- `TcpRelayServer::handle_connect_local` (server.rs lines 103-125): loop
reading from the local (client) socket, decrypting, and writing to the
remote socket.  On a read error (EOF included) it merely breaks — no
half-close of either socket; on a write error the `.ok().expect(..)` call
panics the pump task. -/
def handle_connect_local (cipher : CipherVariant) :
    List ReadEvent → List WriteResult → List PumpEvent
  | [], _ => []
  | Except.error _ :: _, _ => [PumpEvent.loopBreak]
  | Except.ok _ :: _, [] => []
  | Except.ok chunk :: rs, w :: ws =>
      let dec := cipher.decrypt chunk
      match w with
      | none => PumpEvent.wroteRemote dec.fst :: handle_connect_local dec.snd rs ws
      | some _ => [PumpEvent.taskPanic]

/-- Sequence of ciphertexts produced by encrypting a list of chunks in
order on one cipher handle. -/
def encryptList (c : CipherVariant) : List (List Nat) → List (List Nat)
  | [] => []
  | m :: ms =>
      let e := c.encrypt m
      e.fst :: encryptList e.snd ms

/-- Sequence of plaintexts produced by decrypting a list of chunks in
order on one cipher handle. -/
def decryptList (c : CipherVariant) : List (List Nat) → List (List Nat)
  | [] => []
  | m :: ms =>
      let d := c.decrypt m
      d.fst :: decryptList d.snd ms

/-! ## Configuration and `TcpRelayServer::new` -/

/-- One server definition from the configuration file. -/
structure ServerDef where
  address : String
  port : Nat
  password : List Nat
  method : String
  timeout : Option Nat
  deriving DecidableEq, Repr

/-- The `config::ServerConfigVariant` consumed by the relay: either a
single definition or a list of definitions. -/
inductive ServerCfg where
  | SingleServer (s : ServerDef)
  | MultipleServer (slist : List ServerDef)
  deriving DecidableEq, Repr

/-- The slice of `config::Config` the TCP relay server reads. -/
structure Config where
  server : Option ServerCfg
  deriving DecidableEq, Repr

/-- Startup failure of `TcpRelayServer::new` (the `fail!` calls, which
abort the process since they run on the main task). -/
inductive ConfigError where
  | noServerConfig
  | notExactlyOneServer
  deriving DecidableEq, Repr

/-- The server value constructed by `TcpRelayServer::new`. -/
structure TcpRelayServer where
  config : Config
  deriving DecidableEq, Repr

/-- `TcpRelayServer::new` (server.rs lines 46-62): `fail!` when no server
configuration is present, accept a `SingleServer`, and `fail!` on a
`MultipleServer` list whose length is not exactly one. -/
def TcpRelayServer.new (c : Config) : Except ConfigError TcpRelayServer :=
  match c.server with
  | none => Except.error ConfigError.noServerConfig
  | some cfg =>
    match cfg with
    | ServerCfg.SingleServer _ => Except.ok { config := c }
    | ServerCfg.MultipleServer slist =>
      if slist.length ≠ 1 then Except.error ConfigError.notExactlyOneServer
      else Except.ok { config := c }

/-! ## SOCKS5 request-header parsing and destination addresses -/

/-- The destination address decoded from a request header:
`relay::socks5::{SocketAddress, DomainNameAddress}`.  A socket address
carries its octets (4 for IPv4, 16 for IPv6) and port; a domain-name
address carries the name's bytes and port. -/
inductive Address where
  | SocketAddress (octets : List Nat) (port : Nat)
  | DomainNameAddress (name : List Nat) (port : Nat)
  deriving DecidableEq, Repr

/-- Parse failure of the request-header parser. -/
inductive ParseError where
  | malformedHeader
  deriving DecidableEq, Repr

/-- Big-endian 16-bit port from two bytes. -/
def portOf (hi lo : Nat) : Nat := 256 * hi + lo

/-- Modelled from the spec: `relay::socks5::parse_request_header` (the
socks5 module is not in this tree).  Wire format per the design: one
address-type byte (1 = IPv4, 3 = domain name with a one-byte length
prefix, 4 = IPv6), the address bytes, then a 2-byte big-endian port;
truncated buffers and unknown type bytes are rejected as malformed.
Returns the number of bytes consumed together with the address. -/
def parse_request_header (buf : List Nat) : Except ParseError (Nat × Address) :=
  match buf with
  | [] => Except.error ParseError.malformedHeader
  | t :: rest =>
    if t = 1 then
      match rest with
      | a :: b :: c :: d :: hi :: lo :: _ =>
          Except.ok (7, Address.SocketAddress [a, b, c, d] (portOf hi lo))
      | _ => Except.error ParseError.malformedHeader
    else if t = 3 then
      match rest with
      | [] => Except.error ParseError.malformedHeader
      | len :: rest2 =>
        if len + 2 ≤ rest2.length then
          let name := rest2.take len
          let hi := rest2.getD len 0
          let lo := rest2.getD (len + 1) 0
          Except.ok (len + 4, Address.DomainNameAddress name (portOf hi lo))
        else Except.error ParseError.malformedHeader
    else if t = 4 then
      if 18 ≤ rest.length then
        let hi := rest.getD 16 0
        let lo := rest.getD 17 0
        Except.ok (19, Address.SocketAddress (rest.take 16) (portOf hi lo))
      else Except.error ParseError.malformedHeader
    else Except.error ParseError.malformedHeader

/-! ## Cached DNS -/

/-- A resolved IP address (abstract). -/
abbrev IpAddr := Nat

/-- The cached-DNS map: domain-name bytes to resolved address. -/
abbrev DnsCache := List (List Nat × IpAddr)

/-- Association-list lookup used by the cache and by the modelled system
resolver table. -/
def lookupName (m : List (List Nat × IpAddr)) (name : List Nat) :
    Option IpAddr :=
  match m with
  | [] => none
  | (k, v) :: rest => if k = name then some v else lookupName rest name

/-- Modelled from the spec: `relay::tcprelay::cached_dns::CachedDns::resolve`
(the cached_dns module is not in this tree).  On a cache hit return the
cached address; on a miss consult the system resolver (`sys`, the
environment's answer table), store a successful result, and return `none`
on resolution failure, leaving the cache unchanged. -/
def CachedDns.resolve (cache : DnsCache) (sys : List (List Nat × IpAddr))
    (name : List Nat) : Option IpAddr × DnsCache :=
  match lookupName cache name with
  | some ip => (some ip, cache)
  | none =>
    match lookupName sys name with
    | some ip => (some ip, (name, ip) :: cache)
    | none => (none, cache)

/-- Events of the domain-resolution step of the connection handler, used
to express what happens under the DNS cache's mutex.  The handler does
`dnscache.lock().resolve(name)` (server.rs line 193): the guard is taken
for the whole `resolve` call. -/
inductive DnsEvent where
  | lockAcquire
  | mapLookup (name : List Nat)
  | sysResolveCall (name : List Nat)
  | mapInsert (name : List Nat)
  | lockRelease
  deriving DecidableEq, Repr

/-- Event trace of `dnscache.lock().resolve(name)` as executed by the
connection handler: acquire the mutex guard, run `resolve` (map lookup;
on a miss the blocking system resolution, then an insert on success),
drop the guard when the statement ends. -/
def resolveEvents (cache : DnsCache) (sys : List (List Nat × IpAddr))
    (name : List Nat) : List DnsEvent :=
  DnsEvent.lockAcquire :: DnsEvent.mapLookup name ::
    (match lookupName cache name with
     | some _ => [DnsEvent.lockRelease]
     | none =>
       DnsEvent.sysResolveCall name ::
         (match lookupName sys name with
          | some _ => [DnsEvent.mapInsert name, DnsEvent.lockRelease]
          | none => [DnsEvent.lockRelease]))

/-- `true` when some system-resolution call in the trace happens while at
least one lock is held (scanning with a held-lock counter). -/
def sysUnderLock (depth : Nat) : List DnsEvent → Bool
  | [] => false
  | DnsEvent.lockAcquire :: es => sysUnderLock (depth + 1) es
  | DnsEvent.lockRelease :: es => sysUnderLock (depth - 1) es
  | DnsEvent.sysResolveCall _ :: es =>
      decide (0 < depth) || sysUnderLock depth es
  | DnsEvent.mapLookup _ :: es => sysUnderLock depth es
  | DnsEvent.mapInsert _ :: es => sysUnderLock depth es

/-! ## The accept loop and per-connection handler (`TcpRelayServer::run`) -/

/-- Per-server parameters extracted from the configuration at the top of
`run` (server.rs lines 130-140): cipher method name and password. -/
structure ServerParams where
  method : String
  password : List Nat
  deriving DecidableEq, Repr

/-- Environment of one accepted connection: the bytes pending on the
client socket for the handshake read, whether that read itself fails,
the system resolver's current answer table, and whether the outbound
`TcpStream::connect` dial would succeed. -/
structure ConnInput where
  pending : List Nat
  headerReadErr : Option IoErrorKind
  sysResolve : List (List Nat × IpAddr)
  dialOk : Bool

/-- Connection-scoped failures of the handler: each corresponds to a
`fail!` or `.expect(..)` in the spawned proc of `run` (server.rs lines
162-216), which aborts only that connection's task. -/
inductive ConnError where
  | unsupportedCipher
  | handshakeError
  | malformedHeader
  | resolutionError
  | dialError
  deriving DecidableEq, Repr

/-- The handshake read of `run` (server.rs lines 167-171): a single read
into the 1024-byte buffer `[0u8, .. 1024]`, returning the filled prefix
`buf.slice_to(header_len)`. -/
def handshakeRead (pending : List Nat) : List Nat := pending.take 1024

/-- The spawned proc of `run` handling one accepted connection (server.rs
lines 162-216): build the cipher from the configured method and password
(`expect` on an unsupported name), read once into the 1024-byte buffer and
decrypt exactly those bytes, parse the request header (`fail!` on a parse
error), then dial the destination — for a socket address directly, for a
domain name after `dnscache.lock().resolve` (`fail!` when resolution
returns `None`, `expect` on a dial failure).  On success the proc spawns
the two pump tasks and ends (state `Relaying`).  Every failure is an
`Except.error` confined to this connection; the DNS cache state is
threaded through. -/
def handleClient (params : ServerParams) (cache : DnsCache)
    (conn : ConnInput) : Except ConnError Unit × DnsCache :=
  match withName params.method params.password with
  | none => (Except.error ConnError.unsupportedCipher, cache)
  | some cipher0 =>
    match conn.headerReadErr with
    | some _ => (Except.error ConnError.handshakeError, cache)
    | none =>
      let header := (cipher0.decrypt (handshakeRead conn.pending)).fst
      match parse_request_header header with
      | Except.error _ => (Except.error ConnError.malformedHeader, cache)
      | Except.ok (_, addr) =>
        match addr with
        | Address.SocketAddress _ _ =>
            if conn.dialOk then (Except.ok (), cache)
            else (Except.error ConnError.dialError, cache)
        | Address.DomainNameAddress name _ =>
          match CachedDns.resolve cache conn.sysResolve name with
          | (none, cache') => (Except.error ConnError.resolutionError, cache')
          | (some _, cache') =>
              if conn.dialOk then (Except.ok (), cache')
              else (Except.error ConnError.dialError, cache')

/-- The accept loop of `run` (server.rs lines 153-222): each accepted
connection is handed to a spawned task running `handleClient`; a task's
failure is its own `Except.error` value and the loop goes on to the next
connection unconditionally.  The shared DNS cache is threaded through in
accept order (one linearization of the concurrent executions). -/
def runAcceptLoop (params : ServerParams) :
    DnsCache → List ConnInput → List (Except ConnError Unit) × DnsCache
  | cache, [] => ([], cache)
  | cache, c :: cs =>
    let r := handleClient params cache c
    let rest := runAcceptLoop params r.snd cs
    (r.fst :: rest.fst, rest.snd)

/-- Cipher handle after encrypting a list of chunks in order. -/
def encAfter (c : CipherVariant) : List (List Nat) → CipherVariant
  | [] => c
  | m :: ms => encAfter (c.encrypt m).snd ms

/-- Cipher handle after decrypting a list of chunks in order. -/
def decAfter (c : CipherVariant) : List (List Nat) → CipherVariant
  | [] => c
  | m :: ms => decAfter (c.decrypt m).snd ms

/-! ## Helper lemmas -/

theorem xorStream_length (ks : Nat → Nat) :
    ∀ (m : List Nat) (p : Nat), (xorStream ks p m).length = m.length := by
  intro m
  induction m with
  | nil => intro p; rfl
  | cons b bs ih => intro p; simp [xorStream, ih]

theorem xorStream_involutive (ks : Nat → Nat) :
    ∀ (m : List Nat) (p : Nat), xorStream ks p (xorStream ks p m) = m := by
  intro m
  induction m with
  | nil => intro p; rfl
  | cons b bs ih =>
    intro p
    simp only [xorStream, ih]
    rw [Nat.xor_assoc, Nat.xor_self, Nat.xor_zero]

theorem decryptList_encryptList (ks : Nat → Nat) :
    ∀ (ms : List (List Nat)) (p ea db : Nat),
      decryptList ⟨ks, ea, p⟩ (encryptList ⟨ks, p, db⟩ ms) = ms := by
  intro ms
  induction ms with
  | nil => intro p ea db; rfl
  | cons m rest ih =>
    intro p ea db
    simp only [encryptList, decryptList, CipherVariant.encrypt, CipherVariant.decrypt]
    rw [xorStream_involutive, xorStream_length]
    exact congrArg (m :: ·) (ih (p + m.length) ea db)

theorem handle_connect_remote_ok_run (chunks : List (List Nat)) :
    ∀ (c : CipherVariant) (rs : List ReadEvent) (ws : List WriteResult),
      handle_connect_remote c (chunks.map Except.ok ++ rs)
          (chunks.map (fun _ => (none : WriteResult)) ++ ws)
        = (encryptList c chunks).map PumpEvent.wroteLocal
            ++ handle_connect_remote (encAfter c chunks) rs ws := by
  induction chunks with
  | nil => intro c rs ws; rfl
  | cons m ms ih =>
    intro c rs ws
    simp only [List.map_cons, List.cons_append, handle_connect_remote,
      encryptList, encAfter, List.append_eq]
    rw [ih]

theorem handle_connect_local_ok_run (chunks : List (List Nat)) :
    ∀ (c : CipherVariant) (rs : List ReadEvent) (ws : List WriteResult),
      handle_connect_local c (chunks.map Except.ok ++ rs)
          (chunks.map (fun _ => (none : WriteResult)) ++ ws)
        = (decryptList c chunks).map PumpEvent.wroteRemote
            ++ handle_connect_local (decAfter c chunks) rs ws := by
  induction chunks with
  | nil => intro c rs ws; rfl
  | cons m ms ih =>
    intro c rs ws
    simp only [List.map_cons, List.cons_append, handle_connect_local,
      decryptList, decAfter, List.append_eq]
    rw [ih]

theorem runAcceptLoop_length (params : ServerParams) :
    ∀ (cs : List ConnInput) (cache : DnsCache),
      ((runAcceptLoop params cache cs).fst).length = cs.length := by
  intro cs
  induction cs with
  | nil => intro cache; rfl
  | cons c rest ih => intro cache; simp [runAcceptLoop, ih]

/-! ## Claims -/

/-- Claim C7 counterexample: the pump read buffers are `[0u8, .. 0xffff]`,
i.e. 65535 bytes, not the 64 KiB = 65536 bytes the claim states. -/
theorem pump_buffer_not_65536 :
    ¬ (remotePumpBufSize = 65536 ∧ localPumpBufSize = 65536) := by
  have h : remotePumpBufSize = 65535 := by
    show (List.replicate 0xffff (0 : Nat)).length = 65535
    rw [List.length_replicate]
  intro hc
  rw [h] at hc
  exact absurd hc.left (by decide)

/-- Claim C7 (amended): in every pump-loop iteration the read goes into a
fixed buffer of 0xffff = 65535 bytes, the same fixed size in both
directions. -/
theorem pump_buffer_size_65535 :
    remotePumpBufSize = 65535 ∧ localPumpBufSize = 65535 ∧
      remotePumpBufSize = localPumpBufSize := by
  have h1 : remotePumpBufSize = 65535 := by
    show (List.replicate 0xffff (0 : Nat)).length = 65535
    rw [List.length_replicate]
  have h2 : localPumpBufSize = 65535 := by
    show (List.replicate 0xffff (0 : Nat)).length = 65535
    rw [List.length_replicate]
  exact ⟨h1, h2, h1.trans h2.symm⟩

/-- Claim C3: constructing the TCP relay server from a configuration fails
exactly when the configuration has no server entry or a multi-server list
whose length is not one; a configuration with exactly one server
definition (a `SingleServer`, or a `MultipleServer` singleton) is
accepted. -/
theorem new_config_validation :
    (∀ c : Config,
      (TcpRelayServer.new c).isOk = true ↔
        ¬ (c.server = none ∨
            ∃ slist, c.server = some (ServerCfg.MultipleServer slist) ∧
              slist.length ≠ 1)) ∧
    (∀ s : ServerDef,
      (TcpRelayServer.new ⟨some (ServerCfg.SingleServer s)⟩).isOk = true ∧
      (TcpRelayServer.new ⟨some (ServerCfg.MultipleServer [s])⟩).isOk = true) := by
  constructor
  · intro c
    match hc : c.server with
    | none => simp [TcpRelayServer.new, hc, Except.isOk, Except.toBool]
    | some (ServerCfg.SingleServer s) =>
        simp [TcpRelayServer.new, hc, Except.isOk, Except.toBool]
    | some (ServerCfg.MultipleServer slist) =>
        by_cases hlen : slist.length = 1 <;>
          simp [TcpRelayServer.new, hc, hlen, Except.isOk, Except.toBool]
  · intro s
    constructor <;> rfl

/-- Claim C1 counterexample: on a clean EOF from the client socket,
`handle_connect_local` merely breaks out of its loop — it never half-closes
the remote socket's write side, contrary to the claim. -/
theorem local_eof_no_halfclose :
    PumpEvent.closedRemoteWrite ∉
      handle_connect_local ⟨fun _ => 0, 0, 0⟩
        [Except.error IoErrorKind.endOfFile] [] := by
  intro h
  simp [handle_connect_local] at h

/-- Claim C1 (amended): on a clean EOF read, the remote-to-client loop
(`handle_connect_remote`) half-closes the client socket's write side and
terminates, but the client-to-remote loop (`handle_connect_local`) merely
terminates on client EOF, half-closing neither socket. -/
theorem eof_halfclose_behavior (c : CipherVariant) (chunks : List (List Nat))
    (rest : List ReadEvent) (ws : List WriteResult) :
    handle_connect_remote c
        (chunks.map Except.ok ++ Except.error IoErrorKind.endOfFile :: rest)
        (chunks.map (fun _ => (none : WriteResult)) ++ ws)
      = (encryptList c chunks).map PumpEvent.wroteLocal
          ++ [PumpEvent.closedLocalWrite, PumpEvent.loopBreak] ∧
    handle_connect_local c
        (chunks.map Except.ok ++ Except.error IoErrorKind.endOfFile :: rest)
        (chunks.map (fun _ => (none : WriteResult)) ++ ws)
      = (decryptList c chunks).map PumpEvent.wroteRemote
          ++ [PumpEvent.loopBreak] := by
  constructor
  · rw [handle_connect_remote_ok_run]
    rfl
  · rw [handle_connect_local_ok_run]
    rfl

/-- Claim C4 counterexample: on a write failure, `handle_connect_local`
panics its task via `.ok().expect(..)` — it never half-closes the read
side of the client socket it was reading from, contrary to the claim. -/
theorem local_write_fail_no_halfclose :
    PumpEvent.closedLocalRead ∉
      handle_connect_local ⟨fun _ => 0, 0, 0⟩
        [Except.ok [0]] [some IoErrorKind.brokenPipe] := by
  intro h
  simp [handle_connect_local, CipherVariant.decrypt] at h

/-- Claim C4 (amended): on an unrecoverable write failure, the
remote-to-client loop (`handle_connect_remote`) half-closes the read side
of the remote socket it was reading from and terminates, whereas the
client-to-remote loop (`handle_connect_local`) panics its own pump task
without half-closing either socket. -/
theorem write_fail_behavior (c : CipherVariant) (chunks : List (List Nat))
    (m : List Nat) (k : IoErrorKind) (rest : List ReadEvent)
    (ws : List WriteResult) :
    handle_connect_remote c
        (chunks.map Except.ok ++ Except.ok m :: rest)
        (chunks.map (fun _ => (none : WriteResult)) ++ some k :: ws)
      = (encryptList c chunks).map PumpEvent.wroteLocal
          ++ [PumpEvent.closedRemoteRead, PumpEvent.loopBreak] ∧
    handle_connect_local c
        (chunks.map Except.ok ++ Except.ok m :: rest)
        (chunks.map (fun _ => (none : WriteResult)) ++ some k :: ws)
      = (decryptList c chunks).map PumpEvent.wroteRemote
          ++ [PumpEvent.taskPanic] := by
  constructor
  · rw [handle_connect_remote_ok_run]
    rfl
  · rw [handle_connect_local_ok_run]
    rfl

/-- Claim C5: with all reads and writes succeeding, the client-to-remote
loop writes to the remote socket exactly the in-order decryptions of the
chunks read from the client socket, and the remote-to-client loop writes
to the client socket exactly the in-order encryptions of the chunks read
from the remote socket — one cipher transform per direction, applied in
arrival order on a single threaded cipher handle. -/
theorem pump_transform_order (c : CipherVariant) (chunks : List (List Nat)) :
    handle_connect_local c (chunks.map Except.ok)
        (chunks.map (fun _ => (none : WriteResult)))
      = (decryptList c chunks).map PumpEvent.wroteRemote ∧
    handle_connect_remote c (chunks.map Except.ok)
        (chunks.map (fun _ => (none : WriteResult)))
      = (encryptList c chunks).map PumpEvent.wroteLocal := by
  constructor
  · have h := handle_connect_local_ok_run chunks c [] []
    simpa [handle_connect_local] using h
  · have h := handle_connect_remote_ok_run chunks c [] []
    simpa [handle_connect_remote] using h

/-- Claim C8 counterexample: for an uncached name whose system resolution
fails, the handler's `dnscache.lock().resolve(name)` performs the blocking
system-resolution call while the cache's mutex guard is held, contrary to
the claim that the lock is never held across that call. -/
theorem dns_lock_held_across_sys :
    sysUnderLock 0 (resolveEvents [] [] [100]) = true := by
  rfl

/-- Claim C8 (amended): the DNS cache's mutex guard is taken for the whole
`resolve` call, so the blocking system-resolution call runs under the lock
exactly when the name is not already cached; concurrent resolve calls,
even for distinct names, therefore serialize behind a slow resolution. -/
theorem dns_lock_spans_resolve (cache : DnsCache)
    (sys : List (List Nat × IpAddr)) (name : List Nat) :
    sysUnderLock 0 (resolveEvents cache sys name)
      = (lookupName cache name).isNone := by
  match hc : lookupName cache name with
  | some ip => simp [resolveEvents, hc, sysUnderLock]
  | none =>
    match hs : lookupName sys name with
    | some ip => simp [resolveEvents, hc, hs, sysUnderLock]
    | none => simp [resolveEvents, hc, hs, sysUnderLock]

/-- Claim C2: a connection whose handling fails (unsupported cipher,
handshake read error, malformed header, resolution failure, dial failure)
contributes exactly its own error value to the accept loop's results; the
loop goes on to handle every remaining connection, and every accepted
connection yields exactly one result. -/
theorem connection_failure_isolated (params : ServerParams) (cache : DnsCache)
    (c : ConnInput) (cs : List ConnInput) (e : ConnError)
    (h : (handleClient params cache c).fst = Except.error e) :
    (runAcceptLoop params cache (c :: cs)).fst
      = Except.error e
          :: (runAcceptLoop params (handleClient params cache c).snd cs).fst ∧
    ((runAcceptLoop params cache (c :: cs)).fst).length = cs.length + 1 := by
  constructor
  · simp [runAcceptLoop, h]
  · simp [runAcceptLoop, runAcceptLoop_length]

/-- Claim C2 witness: a connection with an unrecognized cipher method
fails with `unsupportedCipher` in its own slot while the loop result still
has one entry per connection. -/
theorem connection_failure_isolated_witness :
    (runAcceptLoop ⟨"bogus", []⟩ [] [⟨[], none, [], true⟩]).fst
      = Except.error ConnError.unsupportedCipher
          :: (runAcceptLoop ⟨"bogus", []⟩
               (handleClient ⟨"bogus", []⟩ [] ⟨[], none, [], true⟩).snd []).fst ∧
    ((runAcceptLoop ⟨"bogus", []⟩ [] [⟨[], none, [], true⟩]).fst).length
      = ([] : List ConnInput).length + 1 :=
  connection_failure_isolated ⟨"bogus", []⟩ [] ⟨[], none, [], true⟩ []
    ConnError.unsupportedCipher rfl

/-- Claim C6: when a domain-name destination is neither cached nor
resolvable, `CachedDns::resolve` returns `none` and leaves the cache
unchanged (resolution failure is a reported absence, not a thrown error),
the handler fails that one connection with `resolutionError`, and the
accept loop continues with the remaining connections under the very same
cache state. -/
theorem resolution_failure_isolated (params : ServerParams) (cache : DnsCache)
    (conn : ConnInput) (c0 : CipherVariant) (name : List Nat) (p n : Nat)
    (cs : List ConnInput)
    (hcipher : withName params.method params.password = some c0)
    (hread : conn.headerReadErr = none)
    (hparse : parse_request_header ((c0.decrypt (handshakeRead conn.pending)).fst)
        = Except.ok (n, Address.DomainNameAddress name p))
    (hcache : lookupName cache name = none)
    (hsys : lookupName conn.sysResolve name = none) :
    CachedDns.resolve cache conn.sysResolve name = (none, cache) ∧
    handleClient params cache conn
      = (Except.error ConnError.resolutionError, cache) ∧
    (runAcceptLoop params cache (conn :: cs)).fst
      = Except.error ConnError.resolutionError
          :: (runAcceptLoop params cache cs).fst := by
  have hres : CachedDns.resolve cache conn.sysResolve name = (none, cache) := by
    simp [CachedDns.resolve, hcache, hsys]
  have hhc : handleClient params cache conn
      = (Except.error ConnError.resolutionError, cache) := by
    simp [handleClient, hcipher, hread, hparse, hres]
  exact ⟨hres, hhc, by simp [runAcceptLoop, hhc]⟩

/-- Claim C6 witness: a concrete connection whose decrypted handshake
names an uncached, unresolvable one-byte domain fails alone with
`resolutionError`, cache untouched, loop unaffected. -/
theorem resolution_failure_isolated_witness :
    CachedDns.resolve [] [] [100] = (none, []) ∧
    handleClient ⟨"rc4", []⟩ [] ⟨[0, 5, 97, 6, 87], none, [], true⟩
      = (Except.error ConnError.resolutionError, []) ∧
    (runAcceptLoop ⟨"rc4", []⟩ [] [⟨[0, 5, 97, 6, 87], none, [], true⟩]).fst
      = Except.error ConnError.resolutionError
          :: (runAcceptLoop ⟨"rc4", []⟩ [] []).fst :=
  resolution_failure_isolated ⟨"rc4", []⟩ [] ⟨[0, 5, 97, 6, 87], none, [], true⟩
    ⟨deriveKeystream "rc4" [], 0, 0⟩ [100] 80 5 [] rfl rfl rfl rfl rfl

/-- Claim C9: for every recognized `(method, password)` pair, decrypting
the encryptions of any sequence of byte chunks, in matching order on the
freshly split encrypt and decrypt handles of the same cipher
construction, returns the original chunks. -/
theorem cipher_roundtrip (method : String) (password : List Nat)
    (c : CipherVariant) (ms : List (List Nat))
    (h : withName method password = some c) :
    decryptList c (encryptList c ms) = ms := by
  unfold withName at h
  split at h
  · injection h with h2
    subst h2
    exact decryptList_encryptList (deriveKeystream method password) ms 0 0 0
  · exact Option.noConfusion h

/-- Claim C9 witness: round trip of two chunks under the "table" method
with password bytes `[1, 2]`. -/
theorem cipher_roundtrip_witness :
    decryptList ⟨deriveKeystream "table" [1, 2], 0, 0⟩
        (encryptList ⟨deriveKeystream "table" [1, 2], 0, 0⟩ [[1, 2, 3], [4]])
      = [[1, 2, 3], [4]] :=
  cipher_roundtrip "table" [1, 2] ⟨deriveKeystream "table" [1, 2], 0, 0⟩
    [[1, 2, 3], [4]] rfl

/-- Claim C10: the handshake is a single read into the 1024-byte buffer —
its chunk never exceeds 1024 bytes — and the handler's outcome depends
only on those first 1024 pending bytes (the request header is parsed from
the decryption of exactly that one chunk; bytes beyond it are never
consulted before parsing). -/
theorem handshake_single_read (params : ServerParams) (cache : DnsCache)
    (conn : ConnInput) :
    (handshakeRead conn.pending).length ≤ 1024 ∧
    handleClient params cache conn
      = handleClient params cache
          { conn with pending := conn.pending.take 1024 } := by
  constructor
  · exact List.length_take_le 1024 conn.pending
  · unfold handleClient
    simp [handshakeRead, List.take_take]

end SS
